import Mathlib

/-
Verification of the hf-scraper acquisition engine against its design spec.

The Go sources are shallowly embedded as pure Lean functions.  The embedding
follows the current revision of the repository: `internal/service/service.go`
in its final form (cursor-based backfill with `BulkUpsert` and the resiliency
fix, matching the `StatusStorage` interface in `internal/service/storage.go`),
`internal/storage/mongo_storage.go`, `internal/storage/status_storage.go`,
and `internal/domain/models.go`.

External effects (HTTP fetches, MongoDB driver outcomes, context
cancellation) are injected as explicit environment values, and each service
routine additionally returns the ordered list of externally visible calls it
performed, so that ordering properties (store before checkpoint, no status
writes from the watch loop, ...) can be stated about the call trace.
-/

namespace HfScraper

/-! ## Domain model (`internal/domain/models.go`)

`time.Time` is modelled as an integer instant; `time.Time.After` is `<` on
instants and the zero value `time.Time{}` is the instant `0`.  The
informational `updatedAt` field of the status document (set from the real
clock on every write and read by nobody) is omitted from the embedding. -/

abbrev Time := Int

/-- `type GatedStatus string` from `internal/domain/models.go`. -/
abbrev GatedStatus := String

def GatedStatusTrue : GatedStatus := "true"

def GatedStatusFalse : GatedStatus := "false"

def GatedStatusAuto : GatedStatus := "auto"

def GatedStatusManual : GatedStatus := "manual"

/-- `type FlexibleBool bool` from `internal/domain/models.go`. -/
abbrev FlexibleBool := Bool

/-- `type Sibling struct { Rfilename string }`. -/
structure Sibling where
  Rfilename : String
deriving DecidableEq

/-- `HuggingFaceModel` from `internal/domain/models.go`, with every field. -/
structure HuggingFaceModel where
  ID : String
  Author : String
  SHA : String
  LastModified : Time
  CreatedAt : Time
  Private : FlexibleBool
  Gated : GatedStatus
  Likes : Int
  Downloads : Int
  Tags : List String
  PipelineTag : String
  Siblings : List Sibling
deriving DecidableEq

/-- `type ServiceStatus string`. -/
abbrev ServiceStatus := String

def StatusNeedsBackfill : ServiceStatus := "NEEDS_BACKFILL"

def StatusWatching : ServiceStatus := "WATCHING"

/-- `StatusDocument` from `internal/domain/models.go` (without the
informational `UpdatedAt` field, see the note above). -/
structure StatusDocument where
  ID : String
  Status : ServiceStatus
  BackfillCursor : String
deriving DecidableEq

/-- `statusDocumentID` from `internal/storage/status_storage.go`. -/
def statusDocumentID : String := "service_status"

/-! ## JSON values and the polymorphic decoders (`internal/domain/models.go`)

Only the top-level shape of a JSON value matters to the two custom decoders:
every JSON number is rejected by both `json.Unmarshal` calls regardless of
its value, and likewise every array and every object, so arrays and objects
are embedded as shape-only constructors. -/

inductive JsonValue where
  | null : JsonValue
  | bool (b : Bool) : JsonValue
  | num (n : Int) : JsonValue
  | str (s : String) : JsonValue
  | arr : JsonValue
  | obj : JsonValue
deriving DecidableEq

/-- Go `json.Unmarshal(data, &s)` for `var s string` with initial value `s0`:
it succeeds on a JSON string, succeeds on JSON `null` while leaving the
target untouched (the documented `encoding/json` rule that unmarshalling
`null` into a non-pointer value is a no-op without error), and fails on
every other JSON value. -/
def unmarshalString (v : JsonValue) (s0 : String) : Option String :=
  match v with
  | .str s => some s
  | .null => some s0
  | _ => none

/-- Go `json.Unmarshal(data, &b)` for `var b bool` with initial value `b0`:
succeeds on a JSON boolean, succeeds on JSON `null` leaving the target
untouched, and fails on every other JSON value. -/
def unmarshalBool (v : JsonValue) (b0 : Bool) : Option Bool :=
  match v with
  | .bool b => some b
  | .null => some b0
  | _ => none

/-- `GatedStatus.UnmarshalJSON` from `internal/domain/models.go`: first try
to unmarshal the data as a string and accept exactly the four enum values,
then try a boolean, mapping `true`/`false` to the string constants. -/
def GatedStatus.UnmarshalJSON (data : JsonValue) : Except String GatedStatus :=
  match unmarshalString data "" with
  | some s =>
    if s = GatedStatusTrue ∨ s = GatedStatusFalse ∨ s = GatedStatusAuto ∨ s = GatedStatusManual then
      Except.ok s
    else
      Except.error ("unknown GatedStatus string: " ++ s)
  | none =>
    match unmarshalBool data false with
    | some b => Except.ok (if b then GatedStatusTrue else GatedStatusFalse)
    | none => Except.error "gated field is not a recognizable string or boolean"

/-- Go `strconv.ParseBool`: accepts exactly `1, t, T, TRUE, true, True` and
`0, f, F, FALSE, false, False`. -/
def strconvParseBool (s : String) : Option Bool :=
  if s = "1" ∨ s = "t" ∨ s = "T" ∨ s = "TRUE" ∨ s = "true" ∨ s = "True" then some true
  else if s = "0" ∨ s = "f" ∨ s = "F" ∨ s = "FALSE" ∨ s = "false" ∨ s = "False" then some false
  else none

/-- `FlexibleBool.UnmarshalJSON` from `internal/domain/models.go`: first try
to unmarshal the data as a boolean, then as a string handed to
`strconv.ParseBool`. -/
def FlexibleBool.UnmarshalJSON (data : JsonValue) : Except String FlexibleBool :=
  match unmarshalBool data false with
  | some b => Except.ok b
  | none =>
    match unmarshalString data "" with
    | none => Except.error "json: cannot unmarshal value into Go value of type string"
    | some s =>
      match strconvParseBool s with
      | none => Except.error ("parsing " ++ s ++ ": invalid syntax")
      | some parsedBool => Except.ok parsedBool

/-! ## Record store (`internal/storage/mongo_storage.go`)

The MongoDB collection of models is embedded as a list of documents keyed by
`_id`; `ReplaceOne` with an `_id` filter and `upsert: true` replaces the
matching document in place when one exists and appends the new document
otherwise. -/

abbrev ModelStore := List HuggingFaceModel

/-- Outcome of a MongoDB write, injected by the environment. -/
inductive WriteOutcome where
  | ok : WriteOutcome
  | err : WriteOutcome
deriving DecidableEq

def WriteOutcome.toBool : WriteOutcome → Bool
  | .ok => true
  | .err => false

/-- `MongoModelStorage.Upsert`: `ReplaceOne` on the filter `_id = model.ID`
with `upsert: true` — wholesale replacement of the stored document by the
new one, insertion if no document carries the key. -/
def Upsert (st : ModelStore) (m : HuggingFaceModel) : ModelStore :=
  if st.any (fun d => d.ID == m.ID) then
    st.map (fun d => if d.ID == m.ID then m else d)
  else
    st ++ [m]

/-- `MongoModelStorage.BulkUpsert`, success path: the early return on an
empty slice, else one `ReplaceOne`-with-upsert write model per record. -/
def BulkUpsert (st : ModelStore) (ms : List HuggingFaceModel) : ModelStore :=
  if ms.length = 0 then st
  else ms.foldl Upsert st

/-- `MongoModelStorage.BulkUpsert` including the driver outcome of the
`BulkWrite` call: an empty slice returns `nil` before the driver is ever
consulted; otherwise the injected driver outcome decides between the bulk
replace and an error. -/
def BulkUpsertCall (driver : WriteOutcome) (st : ModelStore) (ms : List HuggingFaceModel) :
    Except Unit ModelStore :=
  if ms.length = 0 then Except.ok st
  else
    match driver with
    | .ok => Except.ok (BulkUpsert st ms)
    | .err => Except.error ()

/-- `MongoModelStorage.FindByID`: point lookup on `_id`, `nil` when absent. -/
def FindByID (st : ModelStore) (i : String) : Option HuggingFaceModel :=
  st.find? (fun d => d.ID == i)

/-- `MongoModelStorage.FindMostRecentlyModified`: `FindOne` sorted by
`lastModified` descending — a document of maximal `lastModified`, `nil` on
an empty collection. -/
def FindMostRecentlyModified (st : ModelStore) : Option HuggingFaceModel :=
  match st with
  | [] => none
  | m :: rest => some (rest.foldl (fun acc x => if acc.LastModified < x.LastModified then x else acc) m)

/-! ## Database state and status store (`internal/storage/status_storage.go`)

The two MongoDB collections the engine writes: the model collection and the
singleton status document (absent until its first write). -/

structure Db where
  models : ModelStore
  statusDoc : Option StatusDocument
deriving DecidableEq

/-- Outcome of a MongoDB read, injected by the environment; `ioErr` stands
for any driver failure other than `ErrNoDocuments`. -/
inductive ReadOutcome where
  | ok : ReadOutcome
  | ioErr : ReadOutcome
deriving DecidableEq

/-- `MongoStatusStorage.GetStatusDocument`: `FindOne` on the singleton key;
`ErrNoDocuments` (an absent document) is mapped to the default first-run
document, every other driver failure is returned as an error. -/
def GetStatusDocument (ro : ReadOutcome) (db : Db) : Except Unit StatusDocument :=
  match ro with
  | .ioErr => Except.error ()
  | .ok =>
    match db.statusDoc with
    | none =>
      Except.ok { ID := statusDocumentID, Status := StatusNeedsBackfill, BackfillCursor := "" }
    | some doc => Except.ok doc

/-- `MongoStatusStorage.UpdateStatus`, success path: `UpdateOne` with
`$set {status}` and `upsert: true` — updates the `status` field keeping the
cursor, inserting a fresh document (cursor at its zero value) if absent. -/
def UpdateStatus (db : Db) (status : ServiceStatus) : Db :=
  match db.statusDoc with
  | none => { db with statusDoc := some { ID := statusDocumentID, Status := status, BackfillCursor := "" } }
  | some doc => { db with statusDoc := some { doc with Status := status } }

/-- `MongoStatusStorage.UpdateBackfillCursor`, success path: `UpdateOne`
with `$set {backfillCursor}` and `upsert: true`. -/
def UpdateBackfillCursor (db : Db) (cursorURL : String) : Db :=
  match db.statusDoc with
  | none => { db with statusDoc := some { ID := statusDocumentID, Status := "", BackfillCursor := cursorURL } }
  | some doc => { db with statusDoc := some { doc with BackfillCursor := cursorURL } }

/-! ## Scraper interface (`internal/scraper/scraper.go`) -/

/-- `ScrapeResult`: one fetched page and the parsed `Link` header
(`NextURL = ""` when the header carries no next-page reference). -/
structure ScrapeResult where
  Models : List HuggingFaceModel
  NextURL : String
deriving DecidableEq

/-- Outcome of one `Scraper.FetchModels` call, injected by the environment. -/
inductive FetchOutcome where
  | ok (r : ScrapeResult) : FetchOutcome
  | err : FetchOutcome
deriving DecidableEq

/-! ## Acquisition engine (`internal/service/service.go`, final revision)

Every externally visible call the engine makes is recorded, in order, as an
`Effect`; write effects carry whether the injected driver outcome was a
success. -/

inductive Effect where
  | fetchCall (url : String) : Effect
  | bulkUpsertCall (ms : List HuggingFaceModel) (succeeded : Bool) : Effect
  | cursorWrite (cursorURL : String) (succeeded : Bool) : Effect
  | statusWrite (status : ServiceStatus) (succeeded : Bool) : Effect
  | publish (topic : String) (payload : ServiceStatus) : Effect
deriving DecidableEq

/-- `EventModeChange` topic constant. -/
def EventModeChange : String := "status:mode_change"

/-- `backfillStartURL`, built from the configured base URL. -/
def backfillStartURL (baseURL : String) : String :=
  baseURL ++ "/api/models?sort=createdAt&direction=1&full=true"

/-- `watchStartURL`, built from the configured base URL. -/
def watchStartURL (baseURL : String) : String :=
  baseURL ++ "/api/models?sort=lastModified&direction=-1&full=true"

/-- Environment of one iteration of the backfill loop: the context
cancellation flag sampled by the `select`, the fetch outcome, and the driver
outcomes of the `BulkUpsert` and `UpdateBackfillCursor` calls (consulted
only if the corresponding call is reached). -/
structure IterEnv where
  cancelled : Bool
  fetch : FetchOutcome
  bulkWrite : WriteOutcome
  cursorWrite : WriteOutcome
deriving DecidableEq

/-- One iteration of the `for currentURL != ""` loop body of
`Service.runBackfill` (the `default` branch of its `select`): fetch the
current page; on fetch error sleep and retry the same URL; on a non-empty
page bulk-upsert it and, on bulk failure, sleep and retry the same URL
without touching the cursor; only after the page is processed write the
page's `NextURL` as the new cursor (a failed cursor write is logged, the
in-memory URL still advances).  Returns the effect trace, the database
after the iteration, and the next value of `currentURL`. -/
def backfillIterationDb (env : IterEnv) (db : Db) (url : String) :
    List Effect × Db × String :=
  match env.fetch with
  | .err => ([Effect.fetchCall url], db, url)
  | .ok result =>
    if result.Models.length > 0 then
      match env.bulkWrite with
      | .err =>
        ([Effect.fetchCall url, Effect.bulkUpsertCall result.Models false], db, url)
      | .ok =>
        let db1 : Db := { db with models := BulkUpsert db.models result.Models }
        let db2 : Db := if env.cursorWrite = WriteOutcome.ok then UpdateBackfillCursor db1 result.NextURL else db1
        ([Effect.fetchCall url, Effect.bulkUpsertCall result.Models true,
          Effect.cursorWrite result.NextURL env.cursorWrite.toBool],
         db2, result.NextURL)
    else
      let db2 : Db := if env.cursorWrite = WriteOutcome.ok then UpdateBackfillCursor db result.NextURL else db
      ([Effect.fetchCall url, Effect.cursorWrite result.NextURL env.cursorWrite.toBool],
       db2, result.NextURL)

/-- How the backfill loop stopped.  `fuelOut` is a modelling artifact: the
supplied iteration environments ran out while the loop was still going. -/
inductive LoopExit where
  | exhausted : LoopExit
  | cancelled : LoopExit
  | fuelOut : LoopExit
deriving DecidableEq

/-- The `for currentURL != ""` loop of `Service.runBackfill`: exit as soon
as the current URL is empty; otherwise check cancellation, run one
iteration, and continue with the returned URL. -/
def runBackfillLoop (iters : List IterEnv) (db : Db) (url : String) :
    List Effect × Db × LoopExit :=
  if url = "" then ([], db, LoopExit.exhausted)
  else
    match iters with
    | [] => ([], db, LoopExit.fuelOut)
    | env :: rest =>
      if env.cancelled then ([], db, LoopExit.cancelled)
      else
        let step := backfillIterationDb env db url
        let tail := runBackfillLoop rest step.2.1 step.2.2
        (step.1 ++ tail.1, tail.2.1, tail.2.2)

/-- Environment of a whole `runBackfill` call. -/
structure BackfillEnv where
  initWrite : WriteOutcome
  iters : List IterEnv
  transitionWrite : WriteOutcome
deriving DecidableEq

/-- Result of `runBackfill`: `ok` is a `nil` return, `ctxCancelled` the
`ctx.Err()` return from the `select`, `statusWriteFailed` the wrapped error
from the failed `WATCHING` status write, and `stillRunning` the fuel
artifact. -/
inductive BackfillResult where
  | ok : BackfillResult
  | ctxCancelled : BackfillResult
  | statusWriteFailed : BackfillResult
  | stillRunning : BackfillResult
deriving DecidableEq

/-- `Service.runBackfill` (final revision): start from the saved cursor when
non-empty, else from `backfillStartURL` after writing the initial
`NEEDS_BACKFILL` checkpoint (write failure only logged); run the page loop;
on exhaustion write `WATCHING` — a failure of exactly this write is returned
as an error, a success is followed by the mode-change publication. -/
def runBackfill (baseURL : String) (benv : BackfillEnv) (db : Db) (initialCursor : String) :
    List Effect × Db × BackfillResult :=
  let init : List Effect × Db × String :=
    if initialCursor ≠ "" then ([], db, initialCursor)
    else
      ([Effect.statusWrite StatusNeedsBackfill benv.initWrite.toBool],
       (if benv.initWrite = WriteOutcome.ok then UpdateStatus db StatusNeedsBackfill else db),
       backfillStartURL baseURL)
  let res := runBackfillLoop benv.iters init.2.1 init.2.2
  match res.2.2 with
  | LoopExit.cancelled => (init.1 ++ res.1, res.2.1, BackfillResult.ctxCancelled)
  | LoopExit.fuelOut => (init.1 ++ res.1, res.2.1, BackfillResult.stillRunning)
  | LoopExit.exhausted =>
    match benv.transitionWrite with
    | WriteOutcome.err =>
      (init.1 ++ res.1 ++ [Effect.statusWrite StatusWatching false], res.2.1,
       BackfillResult.statusWriteFailed)
    | WriteOutcome.ok =>
      (init.1 ++ res.1 ++ [Effect.statusWrite StatusWatching true,
         Effect.publish EventModeChange StatusWatching],
       UpdateStatus res.2.1 StatusWatching, BackfillResult.ok)

/-- Environment of one watch cycle: the outcome of the
`FindMostRecentlyModified` read, the fetch outcome, and the driver outcome
of the `BulkUpsert` (consulted only if the batch is non-empty). -/
structure WatchEnv where
  findOutcome : ReadOutcome
  fetch : FetchOutcome
  bulkWrite : WriteOutcome
deriving DecidableEq

/-- The benchmark `latestKnownUpdate` of a watch cycle: the maximal stored
`lastModified`, or the zero time on an empty collection. -/
def latestKnownUpdate (db : Db) : Time :=
  match FindMostRecentlyModified db.models with
  | none => 0
  | some m => m.LastModified

/-- The scan loop of `Service.runWatchCycle` (final revision): walk the page
in returned order, collecting records while `model.LastModified.After(benchmark)`
holds, and `break` at the first record for which it does not.  Besides the
collected batch it returns how many records of the page were examined, so
that early termination (later records never evaluated) is expressible. -/
def watchScan (benchmark : Time) : List HuggingFaceModel → List HuggingFaceModel × Nat
  | [] => ([], 0)
  | m :: rest =>
    if benchmark < m.LastModified then
      let tail := watchScan benchmark rest
      (m :: tail.1, tail.2 + 1)
    else
      ([], 1)

/-- `Service.runWatchCycle` (final revision): read the benchmark (errors end
the cycle), fetch the first page of the catalog sorted by `lastModified`
descending (errors end the cycle), scan it, and bulk-upsert the batch only
when it is non-empty (a failure is only logged). -/
def runWatchCycle (baseURL : String) (wenv : WatchEnv) (db : Db) : List Effect × Db :=
  match wenv.findOutcome with
  | .ioErr => ([], db)
  | .ok =>
    match wenv.fetch with
    | .err => ([Effect.fetchCall (watchStartURL baseURL)], db)
    | .ok result =>
      let batch := (watchScan (latestKnownUpdate db) result.Models).1
      if batch.length > 0 then
        match wenv.bulkWrite with
        | .ok =>
          ([Effect.fetchCall (watchStartURL baseURL), Effect.bulkUpsertCall batch true],
           { db with models := BulkUpsert db.models batch })
        | .err =>
          ([Effect.fetchCall (watchStartURL baseURL), Effect.bulkUpsertCall batch false], db)
      else
        ([Effect.fetchCall (watchStartURL baseURL)], db)

/-- `Service.startWatcher`: one immediate cycle, then one cycle per ticker
tick until cancellation.  The injected list holds the environments of the
cycles that run before the cancellation signal wins the `select`. -/
def startWatcher (baseURL : String) (cycles : List WatchEnv) (db : Db) : List Effect × Db :=
  match cycles with
  | [] => ([], db)
  | w :: rest =>
    let step := runWatchCycle baseURL w db
    let tail := startWatcher baseURL rest step.2
    (step.1 ++ tail.1, tail.2)

/-- Environment of a whole `Start` call. -/
structure StartEnv where
  statusRead : ReadOutcome
  backfill : BackfillEnv
  watch : List WatchEnv
deriving DecidableEq

/-- Result of `Service.Start`: `ok` is a `nil` return (including the
graceful-cancellation path), `statusReadError` the wrapped status read
failure, `backfillError` the wrapped backfill failure, `stillBackfilling`
the fuel artifact propagated from the loop. -/
inductive StartResult where
  | ok : StartResult
  | statusReadError : StartResult
  | backfillError : StartResult
  | stillBackfilling : StartResult
deriving DecidableEq

/-- `Service.Start` (final revision): read the status document (failure is
returned); when the mode is `NEEDS_BACKFILL` run the backfill with the saved
cursor — cancellation returns `nil` gracefully, any other backfill error is
returned wrapped; otherwise, and after a successful backfill, run the
watcher until cancellation and return `nil`. -/
def Start (baseURL : String) (senv : StartEnv) (db : Db) : List Effect × Db × StartResult :=
  match GetStatusDocument senv.statusRead db with
  | Except.error _ => ([], db, StartResult.statusReadError)
  | Except.ok statusDoc =>
    if statusDoc.Status = StatusNeedsBackfill then
      let bres := runBackfill baseURL senv.backfill db statusDoc.BackfillCursor
      match bres.2.2 with
      | BackfillResult.ctxCancelled => (bres.1, bres.2.1, StartResult.ok)
      | BackfillResult.statusWriteFailed => (bres.1, bres.2.1, StartResult.backfillError)
      | BackfillResult.stillRunning => (bres.1, bres.2.1, StartResult.stillBackfilling)
      | BackfillResult.ok =>
        let wres := startWatcher baseURL senv.watch bres.2.1
        (bres.1 ++ wres.1, wres.2, StartResult.ok)
    else
      let wres := startWatcher baseURL senv.watch db
      (wres.1, wres.2, StartResult.ok)

/-! ## Concrete example inputs (used by witness theorems) -/

/-- A record with the given key whose freshness and creation timestamps are
the given instant, all remaining attributes at their zero values. -/
def exModel (i : String) (t : Time) : HuggingFaceModel :=
  { ID := i, Author := "", SHA := "", LastModified := t, CreatedAt := t, Private := false,
    Gated := GatedStatusFalse, Likes := 0, Downloads := 0, Tags := [], PipelineTag := "",
    Siblings := [] }

/-- A store holding one record of freshness 3, so the watch benchmark is 3. -/
def exDb : Db := { models := [exModel "m3" 3], statusDoc := none }

/-- The spec example page, descending by freshness: t5, t4, t3, t2. -/
def exPage : ScrapeResult :=
  { Models := [exModel "m5" 5, exModel "m4" 4, exModel "m3b" 3, exModel "m2" 2], NextURL := "" }

def exWatchEnv : WatchEnv :=
  { findOutcome := ReadOutcome.ok, fetch := FetchOutcome.ok exPage, bulkWrite := WriteOutcome.ok }

/-- One successful backfill iteration: a one-record page with a next link. -/
def exIterEnv : IterEnv :=
  { cancelled := false, fetch := FetchOutcome.ok { Models := [exModel "m1" 1], NextURL := "next" },
    bulkWrite := WriteOutcome.ok, cursorWrite := WriteOutcome.ok }

/-- A database whose status document already says `WATCHING`. -/
def exDbWatching : Db :=
  { models := [],
    statusDoc := some { ID := statusDocumentID, Status := StatusWatching, BackfillCursor := "" } }

def exStartEnvWatch : StartEnv :=
  { statusRead := ReadOutcome.ok,
    backfill := { initWrite := WriteOutcome.ok, iters := [], transitionWrite := WriteOutcome.ok },
    watch := [] }

/-- A backfill environment whose only page is empty with no next link, and
whose `WATCHING` transition write fails. -/
def exBackfillEnvFail : BackfillEnv :=
  { initWrite := WriteOutcome.ok,
    iters := [{ cancelled := false, fetch := FetchOutcome.ok { Models := [], NextURL := "" },
                bulkWrite := WriteOutcome.ok, cursorWrite := WriteOutcome.ok }],
    transitionWrite := WriteOutcome.err }

def exStartEnvFail : StartEnv :=
  { statusRead := ReadOutcome.ok, backfill := exBackfillEnvFail, watch := [] }

/-- An empty database: no records, no status document. -/
def exDbEmpty : Db := { models := [], statusDoc := none }

/-- One successful backfill iteration fetching an empty page that carries
no next-page reference. -/
def exIterEnvEmpty : IterEnv :=
  { cancelled := false, fetch := FetchOutcome.ok { Models := [], NextURL := "" },
    bulkWrite := WriteOutcome.ok, cursorWrite := WriteOutcome.ok }

/-! ## Helper lemmas about the keyed record store -/

theorem find?_map_replace (st : ModelStore) (m : HuggingFaceModel)
    (h : st.any (fun d => d.ID == m.ID) = true) :
    (st.map (fun d => if d.ID == m.ID then m else d)).find? (fun d => d.ID == m.ID) = some m := by
  induction st with
  | nil => simp at h
  | cons d rest ih =>
    rw [List.map_cons]
    by_cases hd : d.ID = m.ID
    · have hif : (if d.ID == m.ID then m else d) = m := if_pos (by simp [hd])
      rw [hif, List.find?_cons_of_pos _ (by simp)]
    · have hd2 : (d.ID == m.ID) = false := by simp [hd]
      have hif : (if d.ID == m.ID then m else d) = d := if_neg (by simp [hd])
      rw [hif, List.find?_cons_of_neg _ (by simp [hd])]
      apply ih
      simp only [List.any_cons, hd2, Bool.false_or] at h
      exact h

theorem find?_append_absent (st : ModelStore) (m : HuggingFaceModel)
    (h : st.any (fun d => d.ID == m.ID) = false) :
    (st ++ [m]).find? (fun d => d.ID == m.ID) = some m := by
  induction st with
  | nil => rw [List.nil_append, List.find?_cons_of_pos _ (by simp)]
  | cons d rest ih =>
    simp only [List.any_cons, Bool.or_eq_false_iff] at h
    rw [List.cons_append, List.find?_cons_of_neg _ (by simp [h.1]), ih h.2]

theorem map_replace_absent (st : ModelStore) (m : HuggingFaceModel)
    (h : st.any (fun d => d.ID == m.ID) = false) :
    st.map (fun d => if d.ID == m.ID then m else d) = st := by
  induction st with
  | nil => rfl
  | cons d rest ih =>
    simp only [List.any_cons, Bool.or_eq_false_iff] at h
    have hif : (if d.ID == m.ID then m else d) = d := if_neg (by simp [h.1])
    rw [List.map_cons, hif, ih h.2]

theorem map_replace_idem (st : ModelStore) (m : HuggingFaceModel) :
    (st.map (fun d => if d.ID == m.ID then m else d)).map (fun d => if d.ID == m.ID then m else d) =
      st.map (fun d => if d.ID == m.ID then m else d) := by
  induction st with
  | nil => rfl
  | cons d rest ih =>
    by_cases hd : d.ID = m.ID
    · have hif : (if d.ID == m.ID then m else d) = m := if_pos (by simp [hd])
      rw [List.map_cons, hif, List.map_cons, if_pos (by simp), ih]
    · have hif : (if d.ID == m.ID then m else d) = d := if_neg (by simp [hd])
      rw [List.map_cons, hif, List.map_cons, hif, ih]

theorem upsert_any (st : ModelStore) (m : HuggingFaceModel) :
    (Upsert st m).any (fun d => d.ID == m.ID) = true := by
  unfold Upsert
  split
  next h =>
    rcases List.any_eq_true.mp h with ⟨x, hx, hpx⟩
    refine List.any_eq_true.mpr ⟨m, ?_, by simp⟩
    refine List.mem_map.mpr ⟨x, hx, ?_⟩
    have hpx2 : (x.ID == m.ID) = true := hpx
    exact if_pos hpx2
  next h =>
    exact List.any_eq_true.mpr ⟨m, by simp, by simp⟩

/-! ## Claim theorems about the storage layer -/

/-- C6: reading the status when no status document exists returns the
implicit first-run state — `GetStatusDocument` on an absent document yields
a document with status `NEEDS_BACKFILL` and an empty resumption cursor, and
reports no error. -/
theorem absent_status_document_reads_as_first_run (models : ModelStore) :
    GetStatusDocument ReadOutcome.ok { models := models, statusDoc := none } =
      Except.ok { ID := statusDocumentID, Status := StatusNeedsBackfill, BackfillCursor := "" } :=
  rfl

/-- C7: `Upsert` is an idempotent full replace by key — upserting the same
record twice yields the same store state as upserting it once, looking up
the record's key after an upsert returns exactly the new record in full (no
merging of old fields), and `BulkUpsert` is the per-record fold of the same
replace-by-key operation. -/
theorem upsert_idempotent_full_replace (st : ModelStore) (m : HuggingFaceModel) :
    Upsert (Upsert st m) m = Upsert st m ∧
    FindByID (Upsert st m) m.ID = some m ∧
    (∀ ms, BulkUpsert st ms = ms.foldl Upsert st) ∧
    (∀ ms, BulkUpsertCall WriteOutcome.ok st ms = Except.ok (ms.foldl Upsert st)) := by
  refine ⟨?_, ?_, ?_, ?_⟩
  · conv_lhs => rw [Upsert]
    rw [if_pos (upsert_any st m)]
    rw [Upsert]
    split
    next h => exact map_replace_idem st m
    next h =>
      have h2 : st.any (fun d => d.ID == m.ID) = false := by
        exact Bool.not_eq_true _ ▸ eq_false_of_ne_true h
      rw [List.map_append, map_replace_absent st m h2]
      simp [ite_self]
  · rw [FindByID, Upsert]
    split
    next h => exact find?_map_replace st m h
    next h =>
      have h2 : st.any (fun d => d.ID == m.ID) = false := by
        exact Bool.not_eq_true _ ▸ eq_false_of_ne_true h
      exact find?_append_absent st m h2
  · intro ms
    cases ms with
    | nil => simp [BulkUpsert]
    | cons x xs => simp [BulkUpsert]
  · intro ms
    cases ms with
    | nil => simp [BulkUpsertCall, BulkUpsert]
    | cons x xs => simp [BulkUpsertCall, BulkUpsert]

/-- C9: `BulkUpsert` on an empty list is a no-op that returns success
before the driver is ever consulted, so the watch cycle's non-empty guard
around its bulk upsert is redundant rather than load-bearing. -/
theorem bulk_upsert_empty_is_successful_noop (driver : WriteOutcome) (st : ModelStore) :
    BulkUpsertCall driver st [] = Except.ok st ∧
    BulkUpsert st [] = st ∧
    ∀ batch : List HuggingFaceModel,
      (if batch.length > 0 then BulkUpsert st batch else st) = BulkUpsert st batch := by
  refine ⟨rfl, rfl, ?_⟩
  intro batch
  cases batch with
  | nil => simp [BulkUpsert]
  | cons x xs => simp

/-! ## Claim theorems about the polymorphic field decoders -/

/-- C8 counterexample: `FlexibleBool.UnmarshalJSON` on JSON `null` — a value
that is neither a JSON boolean nor a JSON string — succeeds with `false`
instead of returning a decode error, because `json.Unmarshal` of `null`
into a Go `bool` is a documented no-op success. -/
theorem flexible_bool_decodes_null_without_error :
    FlexibleBool.UnmarshalJSON JsonValue.null = Except.ok false :=
  rfl

/-- C8 (amended): `GatedStatus.UnmarshalJSON` accepts exactly the JSON
booleans (normalized to the strings `true`/`false`) and the four strings
`true`, `false`, `auto`, `manual`, rejecting everything else including
`null`; `FlexibleBool.UnmarshalJSON` accepts a JSON boolean, a JSON string
accepted by `strconv.ParseBool`, and also JSON `null` (decoded to `false`),
and returns a decode error on every other value. -/
theorem polymorphic_field_decode_characterization (v : JsonValue) :
    ((∃ g, GatedStatus.UnmarshalJSON v = Except.ok g) ↔
      (v = JsonValue.bool true ∨ v = JsonValue.bool false ∨ v = JsonValue.str "true" ∨
        v = JsonValue.str "false" ∨ v = JsonValue.str "auto" ∨ v = JsonValue.str "manual")) ∧
    (∀ b, GatedStatus.UnmarshalJSON (JsonValue.bool b) =
      Except.ok (if b then GatedStatusTrue else GatedStatusFalse)) ∧
    (∀ s, GatedStatus.UnmarshalJSON (JsonValue.str s) =
      (if s = GatedStatusTrue ∨ s = GatedStatusFalse ∨ s = GatedStatusAuto ∨ s = GatedStatusManual
        then Except.ok s
        else Except.error ("unknown GatedStatus string: " ++ s))) ∧
    ((∃ b, FlexibleBool.UnmarshalJSON v = Except.ok b) ↔
      (v = JsonValue.null ∨ (∃ b, v = JsonValue.bool b) ∨
        (∃ s, v = JsonValue.str s ∧ strconvParseBool s ≠ none))) ∧
    (∀ s b, strconvParseBool s = some b →
      FlexibleBool.UnmarshalJSON (JsonValue.str s) = Except.ok b) := by
  refine ⟨?_, ?_, ?_, ?_, ?_⟩
  · constructor
    · intro hg
      rcases hg with ⟨g, hg⟩
      cases v with
      | null =>
        simp only [GatedStatus.UnmarshalJSON, unmarshalString] at hg
        rw [if_neg (by decide)] at hg
        exact absurd hg (by simp)
      | bool b => cases b <;> simp
      | num n => simp [GatedStatus.UnmarshalJSON, unmarshalString, unmarshalBool] at hg
      | str s =>
        by_cases hs : s = GatedStatusTrue ∨ s = GatedStatusFalse ∨ s = GatedStatusAuto ∨ s = GatedStatusManual
        · rcases hs with h | h | h | h <;> subst h <;> simp [GatedStatusTrue, GatedStatusFalse,
            GatedStatusAuto, GatedStatusManual]
        · simp [GatedStatus.UnmarshalJSON, unmarshalString, hs] at hg
      | arr => simp [GatedStatus.UnmarshalJSON, unmarshalString, unmarshalBool] at hg
      | obj => simp [GatedStatus.UnmarshalJSON, unmarshalString, unmarshalBool] at hg
    · intro hv
      rcases hv with h | h | h | h | h | h <;> subst h
      · exact ⟨GatedStatusTrue, rfl⟩
      · exact ⟨GatedStatusFalse, rfl⟩
      · exact ⟨GatedStatusTrue, rfl⟩
      · exact ⟨GatedStatusFalse, rfl⟩
      · exact ⟨GatedStatusAuto, rfl⟩
      · exact ⟨GatedStatusManual, rfl⟩
  · intro b; cases b <;> rfl
  · intro s
    by_cases hs : s = GatedStatusTrue ∨ s = GatedStatusFalse ∨ s = GatedStatusAuto ∨ s = GatedStatusManual
    · rw [if_pos hs]
      simp [GatedStatus.UnmarshalJSON, unmarshalString, hs]
    · rw [if_neg hs]
      simp [GatedStatus.UnmarshalJSON, unmarshalString, hs]
  · constructor
    · intro hb
      rcases hb with ⟨b, hb⟩
      cases v with
      | null => left; rfl
      | bool b2 => right; left; exact ⟨b2, rfl⟩
      | num n => simp [FlexibleBool.UnmarshalJSON, unmarshalString, unmarshalBool] at hb
      | str s =>
        right; right
        refine ⟨s, rfl, ?_⟩
        intro hp
        simp [FlexibleBool.UnmarshalJSON, unmarshalString, unmarshalBool, hp] at hb
      | arr => simp [FlexibleBool.UnmarshalJSON, unmarshalString, unmarshalBool] at hb
      | obj => simp [FlexibleBool.UnmarshalJSON, unmarshalString, unmarshalBool] at hb
    · intro hv
      rcases hv with h | ⟨b, h⟩ | ⟨s, h, hp⟩
      · subst h; exact ⟨false, rfl⟩
      · subst h; exact ⟨b, rfl⟩
      · subst h
        rcases Option.ne_none_iff_exists.mp hp with ⟨b, hb⟩
        refine ⟨b, ?_⟩
        simp [FlexibleBool.UnmarshalJSON, unmarshalString, unmarshalBool, hb.symm]
  · intro s b hp
    simp [FlexibleBool.UnmarshalJSON, unmarshalString, unmarshalBool, hp]

/-! ## Helper lemmas about the watch cycle -/

theorem runWatchCycle_trace_cases (baseURL : String) (wenv : WatchEnv) (db : Db) :
    (runWatchCycle baseURL wenv db).1 = [] ∨
    (runWatchCycle baseURL wenv db).1 = [Effect.fetchCall (watchStartURL baseURL)] ∨
    ∃ ms b, (runWatchCycle baseURL wenv db).1 =
      [Effect.fetchCall (watchStartURL baseURL), Effect.bulkUpsertCall ms b] := by
  cases hf : wenv.findOutcome with
  | ioErr => exact Or.inl (by simp [runWatchCycle, hf])
  | ok =>
    cases hw : wenv.fetch with
    | err => exact Or.inr (Or.inl (by simp [runWatchCycle, hf, hw]))
    | ok r =>
      by_cases hb : ((watchScan (latestKnownUpdate db) r.Models).1).length > 0
      · cases hbw : wenv.bulkWrite with
        | ok =>
          exact Or.inr (Or.inr ⟨(watchScan (latestKnownUpdate db) r.Models).1, true,
            by simp [runWatchCycle, hf, hw, hb, hbw]⟩)
        | err =>
          exact Or.inr (Or.inr ⟨(watchScan (latestKnownUpdate db) r.Models).1, false,
            by simp [runWatchCycle, hf, hw, hb, hbw]⟩)
      · exact Or.inr (Or.inl (by simp [runWatchCycle, hf, hw, hb]))

theorem runWatchCycle_statusDoc (baseURL : String) (wenv : WatchEnv) (db : Db) :
    (runWatchCycle baseURL wenv db).2.statusDoc = db.statusDoc := by
  cases hf : wenv.findOutcome with
  | ioErr => simp [runWatchCycle, hf]
  | ok =>
    cases hw : wenv.fetch with
    | err => simp [runWatchCycle, hf, hw]
    | ok r =>
      by_cases hb : ((watchScan (latestKnownUpdate db) r.Models).1).length > 0
      · cases hbw : wenv.bulkWrite with
        | ok => simp [runWatchCycle, hf, hw, hb, hbw]
        | err => simp [runWatchCycle, hf, hw, hb, hbw]
      · simp [runWatchCycle, hf, hw, hb]

theorem runWatchCycle_effect_shapes (baseURL : String) (wenv : WatchEnv) (db : Db) :
    ∀ e ∈ (runWatchCycle baseURL wenv db).1,
      e = Effect.fetchCall (watchStartURL baseURL) ∨ ∃ ms b, e = Effect.bulkUpsertCall ms b := by
  intro e he
  rcases runWatchCycle_trace_cases baseURL wenv db with h | h | ⟨ms, bb, h⟩ <;> rw [h] at he
  · simp at he
  · simp at he
    exact Or.inl he
  · rcases List.mem_cons.mp he with h1 | h1
    · exact Or.inl h1
    · exact Or.inr ⟨ms, bb, List.mem_singleton.mp h1⟩

theorem startWatcher_statusDoc (baseURL : String) (cycles : List WatchEnv) (db : Db) :
    (startWatcher baseURL cycles db).2.statusDoc = db.statusDoc := by
  induction cycles generalizing db with
  | nil => rfl
  | cons w rest ih =>
    show (startWatcher baseURL rest (runWatchCycle baseURL w db).2).2.statusDoc = db.statusDoc
    rw [ih, runWatchCycle_statusDoc]

theorem startWatcher_effect_shapes (baseURL : String) (cycles : List WatchEnv) (db : Db) :
    ∀ e ∈ (startWatcher baseURL cycles db).1,
      e = Effect.fetchCall (watchStartURL baseURL) ∨ ∃ ms b, e = Effect.bulkUpsertCall ms b := by
  induction cycles generalizing db with
  | nil => intro e he; simp [startWatcher] at he
  | cons w rest ih =>
    intro e he
    have hsplit : (startWatcher baseURL (w :: rest) db).1 =
        (runWatchCycle baseURL w db).1 ++
          (startWatcher baseURL rest (runWatchCycle baseURL w db).2).1 := rfl
    rw [hsplit, List.mem_append] at he
    rcases he with he | he
    · exact runWatchCycle_effect_shapes baseURL w db e he
    · exact ih (runWatchCycle baseURL w db).2 e he

/-! ## Helper lemmas about the watch scan -/

theorem watchScan_fst_takeWhile (b : Time) (page : List HuggingFaceModel) :
    (watchScan b page).1 = page.takeWhile (fun m => decide (b < m.LastModified)) := by
  induction page with
  | nil => rfl
  | cons m rest ih =>
    by_cases hm : b < m.LastModified
    · simp [watchScan, hm, List.takeWhile_cons, ih]
    · simp [watchScan, hm, List.takeWhile_cons]

theorem watchScan_snd_min (b : Time) (page : List HuggingFaceModel) :
    (watchScan b page).2 = min ((watchScan b page).1.length + 1) page.length := by
  induction page with
  | nil => simp [watchScan]
  | cons m rest ih =>
    by_cases hm : b < m.LastModified
    · simp only [watchScan, if_pos hm]
      rw [ih]
      simp [Nat.succ_min_succ]
    · simp [watchScan, hm]

theorem watchScan_stops_at_first_stale (b : Time) (page : List HuggingFaceModel)
    (m : HuggingFaceModel)
    (h : (page.drop ((watchScan b page).1.length)).head? = some m) :
    ¬ b < m.LastModified := by
  induction page with
  | nil => simp at h
  | cons x rest ih =>
    by_cases hx : b < x.LastModified
    · simp only [watchScan, if_pos hx, List.length_cons, List.drop_succ_cons] at h
      exact ih h
    · simp only [watchScan, if_neg hx, List.length_nil, List.drop_zero, List.head?_cons,
        Option.some_inj] at h
      rw [← h]
      exact hx

/-! ## Claim theorems about the watch cycle -/

/-- C10: a watch cycle never touches the status document and never
publishes an event — the status store's fields are unchanged, the trace
contains no publish, status-write or cursor-write call, and every call it
does make is the watch fetch or a record bulk upsert. -/
theorem watch_cycle_touches_only_records (baseURL : String) (wenv : WatchEnv) (db : Db) :
    (runWatchCycle baseURL wenv db).2.statusDoc = db.statusDoc ∧
    (∀ t p, Effect.publish t p ∉ (runWatchCycle baseURL wenv db).1) ∧
    (∀ s b, Effect.statusWrite s b ∉ (runWatchCycle baseURL wenv db).1) ∧
    (∀ c b, Effect.cursorWrite c b ∉ (runWatchCycle baseURL wenv db).1) ∧
    (∀ e ∈ (runWatchCycle baseURL wenv db).1,
      e = Effect.fetchCall (watchStartURL baseURL) ∨
        ∃ ms b, e = Effect.bulkUpsertCall ms b) := by
  refine ⟨runWatchCycle_statusDoc baseURL wenv db, ?_, ?_, ?_,
    runWatchCycle_effect_shapes baseURL wenv db⟩
  · intro t p hmem
    rcases runWatchCycle_effect_shapes baseURL wenv db _ hmem with h | ⟨ms, bb, h⟩ <;> simp at h
  · intro s b hmem
    rcases runWatchCycle_effect_shapes baseURL wenv db _ hmem with h | ⟨ms, bb, h⟩ <;> simp at h
  · intro c b hmem
    rcases runWatchCycle_effect_shapes baseURL wenv db _ hmem with h | ⟨ms, bb, h⟩ <;> simp at h

/-- C2: in a watch cycle whose benchmark read and fetch succeed, exactly
the maximal prefix of the returned page whose records are strictly newer
than the benchmark is bulk-upserted, the scan's examined-record count is
one past that prefix (so the scan stops at the first record that is not
strictly newer and never evaluates any later record), and the first record
after the prefix is indeed not strictly newer. -/
theorem watch_cycle_upserts_exactly_strictly_newer (baseURL : String) (wenv : WatchEnv)
    (db : Db) (r : ScrapeResult)
    (hfind : wenv.findOutcome = ReadOutcome.ok)
    (hfetch : wenv.fetch = FetchOutcome.ok r)
    (hbw : wenv.bulkWrite = WriteOutcome.ok) :
    (watchScan (latestKnownUpdate db) r.Models).1 =
      r.Models.takeWhile (fun m => decide (latestKnownUpdate db < m.LastModified)) ∧
    (runWatchCycle baseURL wenv db).2.models =
      BulkUpsert db.models (watchScan (latestKnownUpdate db) r.Models).1 ∧
    (watchScan (latestKnownUpdate db) r.Models).2 =
      min ((watchScan (latestKnownUpdate db) r.Models).1.length + 1) r.Models.length ∧
    (∀ m, (r.Models.drop ((watchScan (latestKnownUpdate db) r.Models).1.length)).head? = some m →
      ¬ latestKnownUpdate db < m.LastModified) := by
  refine ⟨watchScan_fst_takeWhile _ _, ?_, watchScan_snd_min _ _,
    fun m h => watchScan_stops_at_first_stale _ _ m h⟩
  by_cases hb : ((watchScan (latestKnownUpdate db) r.Models).1).length > 0
  · simp [runWatchCycle, hfind, hfetch, hb, hbw]
  · have hnil : (watchScan (latestKnownUpdate db) r.Models).1 = [] := by
      cases hx : (watchScan (latestKnownUpdate db) r.Models).1 with
      | nil => rfl
      | cons a l => rw [hx] at hb; simp at hb
    simp [runWatchCycle, hfind, hfetch, hb, hnil, BulkUpsert]

/-! ## Helper lemmas about the backfill loop -/

theorem UpdateBackfillCursor_models (db : Db) (u : String) :
    (UpdateBackfillCursor db u).models = db.models := by
  cases h : db.statusDoc <;> simp [UpdateBackfillCursor, h]

theorem UpdateStatus_models (db : Db) (s : ServiceStatus) :
    (UpdateStatus db s).models = db.models := by
  cases h : db.statusDoc <;> simp [UpdateStatus, h]

theorem backfillIteration_trace_ne_nil (env : IterEnv) (db : Db) (url : String) :
    (backfillIterationDb env db url).1 ≠ [] := by
  cases hf : env.fetch with
  | err => simp [backfillIterationDb, hf]
  | ok r =>
    by_cases hm : r.Models.length > 0
    · cases hbw : env.bulkWrite <;> simp [backfillIterationDb, hf, hm, hbw]
    · simp [backfillIterationDb, hf, hm]

theorem backfillIteration_next_of_processed (env : IterEnv) (db : Db) (url : String)
    (r : ScrapeResult) (hf : env.fetch = FetchOutcome.ok r)
    (hw : env.bulkWrite = WriteOutcome.ok) :
    (backfillIterationDb env db url).2.2 = r.NextURL := by
  by_cases hm : r.Models.length > 0 <;> simp [backfillIterationDb, hf, hw, hm]

theorem runBackfillLoop_empty_url (iters : List IterEnv) (db : Db) :
    runBackfillLoop iters db "" = ([], db, LoopExit.exhausted) := by
  cases iters <;> simp [runBackfillLoop]

theorem runBackfillLoop_cons (env : IterEnv) (rest : List IterEnv) (db : Db) (url : String)
    (hu : url ≠ "") (hc : env.cancelled = false) :
    runBackfillLoop (env :: rest) db url =
      ((backfillIterationDb env db url).1 ++
        (runBackfillLoop rest (backfillIterationDb env db url).2.1
          (backfillIterationDb env db url).2.2).1,
       (runBackfillLoop rest (backfillIterationDb env db url).2.1
          (backfillIterationDb env db url).2.2).2.1,
       (runBackfillLoop rest (backfillIterationDb env db url).2.1
          (backfillIterationDb env db url).2.2).2.2) := by
  rw [runBackfillLoop, if_neg hu]
  simp [hc]

/-! ## Claim theorems about the backfill loop -/

/-- C1: within any iteration of the backfill loop, the resumption-cursor
write is issued only after the fetched page's records have been durably
stored — whenever the iteration's trace contains a cursor write, it writes
the page's `NextURL`, the trace contains no failed bulk upsert, and for a
non-empty page the trace is exactly fetch, then a successful bulk upsert
(with the records already applied to the store), then the cursor write;
for an empty page it is the fetch followed by the cursor write. -/
theorem cursor_advanced_only_after_durable_store (env : IterEnv) (db : Db) (url c : String)
    (b : Bool) (hmem : Effect.cursorWrite c b ∈ (backfillIterationDb env db url).1) :
    ∃ r, env.fetch = FetchOutcome.ok r ∧ c = r.NextURL ∧
      (∀ ms, Effect.bulkUpsertCall ms false ∉ (backfillIterationDb env db url).1) ∧
      (r.Models.length > 0 →
        env.bulkWrite = WriteOutcome.ok ∧
        (backfillIterationDb env db url).1 =
          [Effect.fetchCall url, Effect.bulkUpsertCall r.Models true,
           Effect.cursorWrite r.NextURL b] ∧
        (backfillIterationDb env db url).2.1.models = BulkUpsert db.models r.Models) ∧
      (¬ r.Models.length > 0 →
        (backfillIterationDb env db url).1 =
          [Effect.fetchCall url, Effect.cursorWrite r.NextURL b]) := by
  cases hf : env.fetch with
  | err =>
    rw [show backfillIterationDb env db url = ([Effect.fetchCall url], db, url) from
      by simp [backfillIterationDb, hf]] at hmem
    simp at hmem
  | ok r =>
    refine ⟨r, rfl, ?_, ?_, ?_, ?_⟩
    · by_cases hm : r.Models.length > 0
      · cases hbw : env.bulkWrite with
        | ok => simp [backfillIterationDb, hf, hm, hbw] at hmem; exact hmem.1
        | err => simp [backfillIterationDb, hf, hm, hbw] at hmem
      · simp [backfillIterationDb, hf, hm] at hmem
        exact hmem.1
    · intro ms hbad
      by_cases hm : r.Models.length > 0
      · cases hbw : env.bulkWrite with
        | ok => simp [backfillIterationDb, hf, hm, hbw] at hbad
        | err => simp [backfillIterationDb, hf, hm, hbw] at hmem
      · simp [backfillIterationDb, hf, hm] at hbad
    · intro hm
      cases hbw : env.bulkWrite with
      | ok =>
        simp [backfillIterationDb, hf, hm, hbw] at hmem
        refine ⟨rfl, ?_, ?_⟩
        · simp [backfillIterationDb, hf, hm, hbw, hmem.2]
        · cases hcw : env.cursorWrite <;>
            simp [backfillIterationDb, hf, hm, hbw, hcw, UpdateBackfillCursor_models]
      | err => simp [backfillIterationDb, hf, hm, hbw] at hmem
    · intro hm
      simp [backfillIterationDb, hf, hm] at hmem
      simp [backfillIterationDb, hf, hm, hmem.2]

/-- C3: the backfill loop terminates exactly when the fetched page carries
no next-page reference — for a processed fetch result (fetch succeeded, the
bulk upsert of a non-empty page succeeded), the loop exits right after
that iteration if and only if the result's `NextURL` is empty, regardless
of whether the page contained zero records; and whenever the backfill run
reaches the exit (result `ok` or `statusWriteFailed`), its trace contains
the attempted `WATCHING` status write. -/
theorem backfill_exits_iff_no_next_reference (env : IterEnv) (rest : List IterEnv) (db : Db)
    (url : String) (r : ScrapeResult)
    (hc : env.cancelled = false) (hf : env.fetch = FetchOutcome.ok r)
    (hw : env.bulkWrite = WriteOutcome.ok) (hu : url ≠ "") :
    ((runBackfillLoop (env :: rest) db url =
        ((backfillIterationDb env db url).1, (backfillIterationDb env db url).2.1,
          LoopExit.exhausted)) ↔ r.NextURL = "") ∧
    (∀ (baseURL : String) (benv : BackfillEnv) (db2 : Db) (cursor : String),
      ((runBackfill baseURL benv db2 cursor).2.2 = BackfillResult.ok ∨
        (runBackfill baseURL benv db2 cursor).2.2 = BackfillResult.statusWriteFailed) →
      Effect.statusWrite StatusWatching benv.transitionWrite.toBool ∈
        (runBackfill baseURL benv db2 cursor).1) := by
  have hnext : (backfillIterationDb env db url).2.2 = r.NextURL :=
    backfillIteration_next_of_processed env db url r hf hw
  constructor
  · constructor
    · intro h
      by_contra hne
      rw [runBackfillLoop_cons env rest db url hu hc] at h
      have hne2 : (backfillIterationDb env db url).2.2 ≠ "" := by rw [hnext]; exact hne
      have htail1 : (runBackfillLoop rest (backfillIterationDb env db url).2.1
          (backfillIterationDb env db url).2.2).1 = [] := by
        have := congrArg Prod.fst h
        simp only at this
        exact List.append_cancel_left (this.trans (List.append_nil _).symm)
      have htail3 : (runBackfillLoop rest (backfillIterationDb env db url).2.1
          (backfillIterationDb env db url).2.2).2.2 = LoopExit.exhausted := by
        have := congrArg (fun x => x.2.2) h
        simpa using this
      cases hrest : rest with
      | nil =>
        rw [hrest] at htail3
        rw [runBackfillLoop, if_neg hne2] at htail3
        simp at htail3
      | cons e2 rest2 =>
        rw [hrest] at htail1 htail3
        by_cases hc2 : e2.cancelled
        · rw [runBackfillLoop, if_neg hne2] at htail3
          simp [hc2] at htail3
        · rw [runBackfillLoop, if_neg hne2] at htail1
          simp only [hc2, Bool.false_eq_true, if_neg, ite_false] at htail1
          rcases List.append_eq_nil.mp htail1 with ⟨h1, _⟩
          exact backfillIteration_trace_ne_nil e2 _ _ h1
    · intro h
      rw [runBackfillLoop_cons env rest db url hu hc, hnext, h, runBackfillLoop_empty_url]
      simp
  · intro baseURL benv db2 cursor hres
    cases htw : benv.transitionWrite with
    | err =>
      simp only [runBackfill, htw] at hres ⊢
      split at hres
      · simp at hres
      · simp at hres
      · simp [WriteOutcome.toBool]
    | ok =>
      simp only [runBackfill, htw] at hres ⊢
      split at hres
      · simp at hres
      · simp at hres
      · simp [WriteOutcome.toBool]

/-! ## Claim theorems about `Start` -/

/-- C4: mode is monotonic within a run — a `Start` call that reads status
`WATCHING` skips the backfill entirely (its trace is exactly the watcher's
trace, whose only fetches are watch fetches), returns `nil`, and no
reachable step of the watch loop writes the status document (in particular
it never writes `NEEDS_BACKFILL`), writes the cursor, or publishes,
regardless of how many watch cycles occur. -/
theorem watching_mode_is_monotonic (baseURL : String) (senv : StartEnv) (db : Db)
    (doc : StatusDocument)
    (hread : GetStatusDocument senv.statusRead db = Except.ok doc)
    (hdoc : doc.Status = StatusWatching) :
    (Start baseURL senv db).1 = (startWatcher baseURL senv.watch db).1 ∧
    (Start baseURL senv db).2.2 = StartResult.ok ∧
    (Start baseURL senv db).2.1.statusDoc = db.statusDoc ∧
    (∀ s b, Effect.statusWrite s b ∉ (Start baseURL senv db).1) ∧
    (∀ c b, Effect.cursorWrite c b ∉ (Start baseURL senv db).1) ∧
    (∀ t p, Effect.publish t p ∉ (Start baseURL senv db).1) ∧
    (∀ u, Effect.fetchCall u ∈ (Start baseURL senv db).1 → u = watchStartURL baseURL) := by
  have hne : ¬ doc.Status = StatusNeedsBackfill := by
    rw [hdoc]
    decide
  have hstart : Start baseURL senv db =
      ((startWatcher baseURL senv.watch db).1, (startWatcher baseURL senv.watch db).2,
        StartResult.ok) := by
    simp only [Start, hread]
    rw [if_neg hne]
  rw [hstart]
  refine ⟨rfl, rfl, startWatcher_statusDoc baseURL senv.watch db, ?_, ?_, ?_, ?_⟩
  · intro s b hmem
    rcases startWatcher_effect_shapes baseURL senv.watch db _ hmem with h | ⟨ms, bb, h⟩ <;>
      simp at h
  · intro c b hmem
    rcases startWatcher_effect_shapes baseURL senv.watch db _ hmem with h | ⟨ms, bb, h⟩ <;>
      simp at h
  · intro t p hmem
    rcases startWatcher_effect_shapes baseURL senv.watch db _ hmem with h | ⟨ms, bb, h⟩ <;>
      simp at h
  · intro u hmem
    rcases startWatcher_effect_shapes baseURL senv.watch db _ hmem with h | ⟨ms, bb, h⟩ <;>
      simp at h
    exact h

/-- C5: a status-write failure at the backfill-to-watch transition is
fatal and is the only backfill failure that is — when `Start` reads
`NEEDS_BACKFILL`, it returns the wrapped backfill error exactly when the
`WATCHING` transition write failed, and in that case its trace is exactly
the backfill trace (the watch loop is never entered); every recoverable
fetch/store failure only shows up inside a backfill that still completes
(result `ok`) or keeps running, never as an error from `Start`. -/
theorem transition_status_write_failure_is_fatal (baseURL : String) (senv : StartEnv)
    (db : Db) (doc : StatusDocument)
    (hread : GetStatusDocument senv.statusRead db = Except.ok doc)
    (hdoc : doc.Status = StatusNeedsBackfill) :
    ((Start baseURL senv db).2.2 = StartResult.backfillError ↔
      (runBackfill baseURL senv.backfill db doc.BackfillCursor).2.2 =
        BackfillResult.statusWriteFailed) ∧
    ((runBackfill baseURL senv.backfill db doc.BackfillCursor).2.2 =
        BackfillResult.statusWriteFailed →
      (Start baseURL senv db).1 = (runBackfill baseURL senv.backfill db doc.BackfillCursor).1) := by
  have hstart : Start baseURL senv db =
      (match (runBackfill baseURL senv.backfill db doc.BackfillCursor).2.2 with
       | BackfillResult.ctxCancelled =>
         ((runBackfill baseURL senv.backfill db doc.BackfillCursor).1,
          (runBackfill baseURL senv.backfill db doc.BackfillCursor).2.1, StartResult.ok)
       | BackfillResult.statusWriteFailed =>
         ((runBackfill baseURL senv.backfill db doc.BackfillCursor).1,
          (runBackfill baseURL senv.backfill db doc.BackfillCursor).2.1,
          StartResult.backfillError)
       | BackfillResult.stillRunning =>
         ((runBackfill baseURL senv.backfill db doc.BackfillCursor).1,
          (runBackfill baseURL senv.backfill db doc.BackfillCursor).2.1,
          StartResult.stillBackfilling)
       | BackfillResult.ok =>
         ((runBackfill baseURL senv.backfill db doc.BackfillCursor).1 ++
            (startWatcher baseURL senv.watch
              (runBackfill baseURL senv.backfill db doc.BackfillCursor).2.1).1,
          (startWatcher baseURL senv.watch
            (runBackfill baseURL senv.backfill db doc.BackfillCursor).2.1).2,
          StartResult.ok)) := by
    simp only [Start, hread]
    rw [if_pos hdoc]
  cases hres : (runBackfill baseURL senv.backfill db doc.BackfillCursor).2.2 <;>
    rw [hres] at hstart <;> rw [hstart] <;> simp [hres]

/-! ## Witness theorems: the claim theorems applied at concrete inputs -/

/-- Witness for C1: a concrete iteration with a one-record page and a next
link — its trace is fetch, successful bulk upsert, cursor write. -/
theorem cursor_advanced_only_after_durable_store_witness :
    (Effect.cursorWrite "next" true ∈ (backfillIterationDb exIterEnv exDbEmpty "u").1) ∧
    (∃ r, exIterEnv.fetch = FetchOutcome.ok r ∧ "next" = r.NextURL ∧
      (∀ ms, Effect.bulkUpsertCall ms false ∉ (backfillIterationDb exIterEnv exDbEmpty "u").1) ∧
      (r.Models.length > 0 →
        exIterEnv.bulkWrite = WriteOutcome.ok ∧
        (backfillIterationDb exIterEnv exDbEmpty "u").1 =
          [Effect.fetchCall "u", Effect.bulkUpsertCall r.Models true,
           Effect.cursorWrite r.NextURL true] ∧
        (backfillIterationDb exIterEnv exDbEmpty "u").2.1.models =
          BulkUpsert exDbEmpty.models r.Models) ∧
      (¬ r.Models.length > 0 →
        (backfillIterationDb exIterEnv exDbEmpty "u").1 =
          [Effect.fetchCall "u", Effect.cursorWrite r.NextURL true])) :=
  ⟨by decide,
   cursor_advanced_only_after_durable_store exIterEnv exDbEmpty "u" "next" true (by decide)⟩

/-- Witness for C2: the spec example — page `[t5, t4, t3, t2]`, benchmark
`t3`: exactly the `t5` and `t4` records form the upserted batch, and the
scan examines three records (`t2` is never evaluated). -/
theorem watch_cycle_upserts_exactly_strictly_newer_witness :
    (exWatchEnv.findOutcome = ReadOutcome.ok ∧
     exWatchEnv.fetch = FetchOutcome.ok exPage ∧
     exWatchEnv.bulkWrite = WriteOutcome.ok) ∧
    ((watchScan (latestKnownUpdate exDb) exPage.Models).1 =
       exPage.Models.takeWhile (fun m => decide (latestKnownUpdate exDb < m.LastModified)) ∧
     (runWatchCycle "" exWatchEnv exDb).2.models =
       BulkUpsert exDb.models (watchScan (latestKnownUpdate exDb) exPage.Models).1) ∧
    (watchScan (latestKnownUpdate exDb) exPage.Models).1 =
      [exModel "m5" 5, exModel "m4" 4] ∧
    (watchScan (latestKnownUpdate exDb) exPage.Models).2 = 3 :=
  ⟨⟨rfl, rfl, rfl⟩,
   ⟨(watch_cycle_upserts_exactly_strictly_newer "" exWatchEnv exDb exPage rfl rfl rfl).1,
    (watch_cycle_upserts_exactly_strictly_newer "" exWatchEnv exDb exPage rfl rfl rfl).2.1⟩,
   by decide, by decide⟩

/-- Witness for C3: a processed page with no next reference makes the loop
exit right after that iteration. -/
theorem backfill_exits_iff_no_next_reference_witness :
    (exIterEnvEmpty.cancelled = false ∧
     exIterEnvEmpty.fetch = FetchOutcome.ok { Models := [], NextURL := "" } ∧
     exIterEnvEmpty.bulkWrite = WriteOutcome.ok ∧ "u" ≠ "") ∧
    runBackfillLoop [exIterEnvEmpty] exDbEmpty "u" =
      ((backfillIterationDb exIterEnvEmpty exDbEmpty "u").1,
       (backfillIterationDb exIterEnvEmpty exDbEmpty "u").2.1, LoopExit.exhausted) :=
  ⟨⟨rfl, rfl, rfl, by decide⟩,
   (backfill_exits_iff_no_next_reference exIterEnvEmpty [] exDbEmpty "u"
      { Models := [], NextURL := "" } rfl rfl rfl (by decide)).1.mpr rfl⟩

/-- Witness for C4: starting against a status document that says
`WATCHING` returns `nil` without any backfill. -/
theorem watching_mode_is_monotonic_witness :
    (GetStatusDocument exStartEnvWatch.statusRead exDbWatching =
       Except.ok { ID := statusDocumentID, Status := StatusWatching, BackfillCursor := "" } ∧
     ({ ID := statusDocumentID, Status := StatusWatching,
        BackfillCursor := "" } : StatusDocument).Status = StatusWatching) ∧
    (Start "" exStartEnvWatch exDbWatching).2.2 = StartResult.ok :=
  ⟨⟨rfl, rfl⟩,
   (watching_mode_is_monotonic "" exStartEnvWatch exDbWatching
      { ID := statusDocumentID, Status := StatusWatching, BackfillCursor := "" } rfl rfl).2.1⟩

/-- Witness for C5: a backfill whose `WATCHING` transition write fails
makes `Start` return the wrapped backfill error. -/
theorem transition_status_write_failure_is_fatal_witness :
    (GetStatusDocument exStartEnvFail.statusRead exDbEmpty =
       Except.ok { ID := statusDocumentID, Status := StatusNeedsBackfill, BackfillCursor := "" } ∧
     ({ ID := statusDocumentID, Status := StatusNeedsBackfill,
        BackfillCursor := "" } : StatusDocument).Status = StatusNeedsBackfill) ∧
    (Start "" exStartEnvFail exDbEmpty).2.2 = StartResult.backfillError :=
  ⟨⟨rfl, rfl⟩,
   (transition_status_write_failure_is_fatal "" exStartEnvFail exDbEmpty
      { ID := statusDocumentID, Status := StatusNeedsBackfill, BackfillCursor := "" }
      rfl rfl).1.mpr (by decide)⟩

/-- Witness for C8 (amended): a `strconv.ParseBool`-accepted string decodes
through `FlexibleBool.UnmarshalJSON`. -/
theorem polymorphic_field_decode_characterization_witness :
    strconvParseBool "t" = some true ∧
    FlexibleBool.UnmarshalJSON (JsonValue.str "t") = Except.ok true :=
  ⟨rfl, (polymorphic_field_decode_characterization (JsonValue.str "t")).2.2.2.2 "t" true rfl⟩

/-- Witness for C10: the fetch effect of a concrete cycle is classified as
one of the two permitted call shapes. -/
theorem watch_cycle_touches_only_records_witness :
    (Effect.fetchCall (watchStartURL "") ∈ (runWatchCycle "" exWatchEnv exDb).1) ∧
    (Effect.fetchCall (watchStartURL "") = Effect.fetchCall (watchStartURL "") ∨
      ∃ ms b, Effect.fetchCall (watchStartURL "") = Effect.bulkUpsertCall ms b) :=
  ⟨by decide,
   (watch_cycle_touches_only_records "" exWatchEnv exDb).2.2.2.2 _ (by decide)⟩

end HfScraper
